import Mathlib

/-!
# Verification of the metro_transit_pings alert engine

Shallow embedding of the alert-decision logic (`src/alert_logic.py`) and the
tracking store (`src/state_manager.py`) of the `metro_transit_pings` repository,
together with proofs about the embedded operations.

Modelling conventions:

* Python `datetime` instants are modelled as `Int` values counting seconds.
  All decision arithmetic in the source compares timezone-aware absolute
  instants, which are totally ordered by the instant they denote, so the
  integer-seconds model is faithful at the second granularity the spec talks
  about.  `isoformat` / `fromisoformat` is a lossless bijection on the aware
  datetimes the program produces and is abstracted away (a record field that
  the Python code stores as an ISO string is modelled by the instant itself).
* `timedelta(minutes=m)` is `60 * m` seconds, `timedelta(hours=h)` is
  `3600 * h` seconds.
* Wherever the Python code defaults an argument to `datetime.now(...)`, the
  embedding takes the current instant as an explicit parameter.
* Python's built-in `round` is round-half-to-even on floats; on the values
  produced by `total_seconds() / 60` for integer-second instants the ties are
  exactly representable, so it is modelled by exact round-half-to-even on the
  integer number of seconds divided by 60.
-/

/-- Configuration of `AlertCalculator` (`src/alert_logic.py`): the two decision
parameters.  The timezone field is used only for display formatting and plays
no role in decision arithmetic, so it is omitted. -/
structure AlertCalculator where
  walking_time_minutes : Int
  advance_notice_minutes : Int
deriving DecidableEq

/-- `AlertCalculator.calculate_leave_time`:
`departure_time - timedelta(minutes=self.walking_time_minutes)`. -/
def calculate_leave_time (c : AlertCalculator) (departure_time : Int) : Int :=
  departure_time - 60 * c.walking_time_minutes

/-- `AlertCalculator.calculate_alert_time`:
`calculate_leave_time(departure_time) - timedelta(minutes=self.advance_notice_minutes)`. -/
def calculate_alert_time (c : AlertCalculator) (departure_time : Int) : Int :=
  calculate_leave_time c departure_time - 60 * c.advance_notice_minutes

/-- `AlertCalculator.should_alert_now`:
`alert_time <= current_time <= leave_time` (Python chained comparison). -/
def should_alert_now (c : AlertCalculator) (departure_time current_time : Int) : Bool :=
  decide (calculate_alert_time c departure_time ≤ current_time) &&
    decide (current_time ≤ calculate_leave_time c departure_time)

/-- Exact round-half-to-even of `s / 60` (the behaviour of Python's built-in
`round` on `delta.total_seconds() / 60` for integer-second deltas).  With
`s = 60 * q + r`, `0 ≤ r < 60` (Euclidean division), the value lies between
`q` and `q + 1`; `r = 30` is the tie, resolved towards the even integer. -/
def roundHalfToEvenDiv60 (s : Int) : Int :=
  if s % 60 < 30 then s / 60
  else if 30 < s % 60 then s / 60 + 1
  else if (s / 60) % 2 = 0 then s / 60 else s / 60 + 1

/-- `AlertCalculator.calculate_delay`:
`round((current_departure_time - original_departure_time).total_seconds() / 60)`. -/
def calculate_delay (original_departure_time current_departure_time : Int) : Int :=
  roundHalfToEvenDiv60 (current_departure_time - original_departure_time)

/-- Round-half-away-from-zero of `s / 60`, written from the spec's words
("standard round-half-away-from-zero on seconds/60") for comparison with the
source's rounding. -/
def roundHalfAwayFromZeroDiv60 (s : Int) : Int :=
  if 0 ≤ s then (s + 30) / 60 else -((-s + 30) / 60)

/-- The delay computation as the spec's claim words it: round-half-away-from-zero
of `(current - original)` seconds over 60. -/
def spec_calculate_delay (original_departure_time current_departure_time : Int) : Int :=
  roundHalfAwayFromZeroDiv60 (current_departure_time - original_departure_time)

/-- A tracked-departure record of the persisted store (`src/state_manager.py`).
The Python code keeps it as a JSON dict; the instant-valued fields hold ISO
strings, modelled here by the instants themselves.  `delay_update_time` is
absent until a delay update is recorded, hence `Option`. -/
structure TrackedDeparture where
  key : String
  route_id : String
  trip_id : String
  stop_id : String
  original_departure_time : Int
  current_departure_time : Int
  initial_alert_sent : Bool
  initial_alert_time : Int
  delay_update_sent : Bool
  delay_update_time : Option Int
deriving DecidableEq

/-- The state dictionary managed by `StateManager` (`_new_state` creates it with
`last_run = None` and an empty `tracked_departures` list). -/
structure StoreState where
  last_run : Option Int
  tracked_departures : List TrackedDeparture
deriving DecidableEq

/-- `StateManager._new_state`: the empty store. -/
def new_state : StoreState :=
  { last_run := none, tracked_departures := [] }

/-- `StateManager._create_departure_key`: `f"{route_id}_{trip_id}_{stop_id}"`. -/
def create_departure_key (route_id trip_id stop_id : String) : String :=
  route_id ++ "_" ++ trip_id ++ "_" ++ stop_id

/-- `StateManager.has_alerted`: scans `tracked_departures` and returns true as
soon as a record with the key and `initial_alert_sent` truthy is found. -/
def has_alerted (s : StoreState) (route_id trip_id stop_id : String) : Bool :=
  s.tracked_departures.any
    (fun dep => dep.key == create_departure_key route_id trip_id stop_id &&
      dep.initial_alert_sent)

/-- `StateManager.has_sent_delay_update`: returns `delay_update_sent` of the
first record whose key matches (the loop returns inside the first match),
false when no record matches. -/
def has_sent_delay_update (s : StoreState) (route_id trip_id stop_id : String) : Bool :=
  match s.tracked_departures.find?
      (fun dep => dep.key == create_departure_key route_id trip_id stop_id) with
  | some dep => dep.delay_update_sent
  | none => false

/-- The record appended by `StateManager.record_alert` when no record with the
key exists. -/
def newTrackedEntry (route_id trip_id stop_id : String)
    (departure_time alert_time : Int) : TrackedDeparture :=
  { key := create_departure_key route_id trip_id stop_id
    route_id := route_id
    trip_id := trip_id
    stop_id := stop_id
    original_departure_time := departure_time
    current_departure_time := departure_time
    initial_alert_sent := true
    initial_alert_time := alert_time
    delay_update_sent := false
    delay_update_time := none }

/-- The loop body of `StateManager.record_alert` over the tracked list: the
first record whose key matches is overwritten in place (fields
`initial_alert_sent`, `initial_alert_time`, `original_departure_time`,
`current_departure_time`) and the function returns; if no record matches, a
fresh entry is appended at the end. -/
def record_alert_list (deps : List TrackedDeparture) (key : String)
    (entry : TrackedDeparture) (departure_time alert_time : Int) :
    List TrackedDeparture :=
  match deps with
  | [] => [entry]
  | dep :: rest =>
    if dep.key == key then
      { dep with
        initial_alert_sent := true
        initial_alert_time := alert_time
        original_departure_time := departure_time
        current_departure_time := departure_time } :: rest
    else dep :: record_alert_list rest key entry departure_time alert_time

/-- `StateManager.record_alert` (with `alert_time` explicit; the Python default
`datetime.now(timezone.utc)` is passed by the caller here). -/
def record_alert (s : StoreState) (route_id trip_id stop_id : String)
    (departure_time alert_time : Int) : StoreState :=
  { s with
    tracked_departures :=
      record_alert_list s.tracked_departures
        (create_departure_key route_id trip_id stop_id)
        (newTrackedEntry route_id trip_id stop_id departure_time alert_time)
        departure_time alert_time }

/-- The loop body of `StateManager.record_delay_update`: the first record whose
key matches gets `delay_update_sent := true`, `current_departure_time` set to
the new departure time and `delay_update_time` stamped with the current
instant; with no match the list (and the store) is left as it was. -/
def record_delay_update_list (deps : List TrackedDeparture) (key : String)
    (new_departure_time now : Int) : List TrackedDeparture :=
  match deps with
  | [] => []
  | dep :: rest =>
    if dep.key == key then
      { dep with
        delay_update_sent := true
        current_departure_time := new_departure_time
        delay_update_time := some now } :: rest
    else dep :: record_delay_update_list rest key new_departure_time now

/-- `StateManager.record_delay_update` (with the `datetime.now(timezone.utc)`
stamp passed explicitly as `now`). -/
def record_delay_update (s : StoreState) (route_id trip_id stop_id : String)
    (new_departure_time now : Int) : StoreState :=
  { s with
    tracked_departures :=
      record_delay_update_list s.tracked_departures
        (create_departure_key route_id trip_id stop_id) new_departure_time now }

/-- `StateManager.get_tracked_departure`: the first record whose key matches,
`None` otherwise. -/
def get_tracked_departure (s : StoreState) (route_id trip_id stop_id : String) :
    Option TrackedDeparture :=
  s.tracked_departures.find?
    (fun dep => dep.key == create_departure_key route_id trip_id stop_id)

/-- `StateManager.cleanup_old_entries` (with `datetime.now(timezone.utc)`
passed explicitly as `now`): keeps exactly the records whose
`original_departure_time` is strictly later than
`now - timedelta(hours=max_age_hours)`. -/
def cleanup_old_entries (s : StoreState) (now max_age_hours : Int) : StoreState :=
  { s with
    tracked_departures :=
      s.tracked_departures.filter
        (fun dep =>
          decide (now - 3600 * max_age_hours < dep.original_departure_time)) }

/-- `StateManager.update_last_run` (with `run_time` explicit). -/
def update_last_run (s : StoreState) (run_time : Int) : StoreState :=
  { s with last_run := some run_time }

/-- One mutating call of the `StateManager` API, with every instant the Python
code would read from the clock supplied as data. -/
inductive StoreOp where
  | opRecordAlert (route_id trip_id stop_id : String) (departure_time alert_time : Int)
  | opRecordDelayUpdate (route_id trip_id stop_id : String) (new_departure_time now : Int)
  | opCleanupOldEntries (now max_age_hours : Int)
  | opUpdateLastRun (run_time : Int)
deriving DecidableEq

/-- Apply one mutating `StateManager` call to a store. -/
def applyOp (s : StoreState) : StoreOp → StoreState
  | StoreOp.opRecordAlert r t st d a => record_alert s r t st d a
  | StoreOp.opRecordDelayUpdate r t st nd now => record_delay_update s r t st nd now
  | StoreOp.opCleanupOldEntries now h => cleanup_old_entries s now h
  | StoreOp.opUpdateLastRun rt => update_last_run s rt

/-- Run a sequence of mutating `StateManager` calls from a starting store. -/
def runOps (s : StoreState) (ops : List StoreOp) : StoreState :=
  ops.foldl applyOp s

/-- A JSON value, the shape of data `json.dump` writes and `json.load` reads
in `StateManager._save_state` / `_load_state`.  The textual rendering and
parsing between a JSON value and the file's bytes is the Python standard
library's `json` module (not repository code) and is a bijection on the values
the store produces; persistence is therefore modelled at the JSON-value
level. -/
inductive Json where
  | null : Json
  | b : Bool → Json
  | i : Int → Json
  | s : String → Json
  | arr : List Json → Json
  | obj : List (String × Json) → Json

/-- Read a JSON string value. -/
def jsonAsString : Json → Option String
  | Json.s v => some v
  | _ => none

/-- Read a JSON boolean value. -/
def jsonAsBool : Json → Option Bool
  | Json.b v => some v
  | _ => none

/-- Read a JSON number holding an instant (an ISO timestamp string in the
Python file, modelled by the instant itself). -/
def jsonAsInt : Json → Option Int
  | Json.i v => some v
  | _ => none

/-- The JSON object `record_alert` / `record_delay_update` keep for one
tracked departure: the field order matches the dict literal in
`StateManager.record_alert`, with `delay_update_time` present only once a
delay update has been recorded. -/
def encodeTracked (dep : TrackedDeparture) : Json :=
  Json.obj
    ([("key", Json.s dep.key),
      ("route_id", Json.s dep.route_id),
      ("trip_id", Json.s dep.trip_id),
      ("stop_id", Json.s dep.stop_id),
      ("original_departure_time", Json.i dep.original_departure_time),
      ("current_departure_time", Json.i dep.current_departure_time),
      ("initial_alert_sent", Json.b dep.initial_alert_sent),
      ("initial_alert_time", Json.i dep.initial_alert_time),
      ("delay_update_sent", Json.b dep.delay_update_sent)] ++
      (match dep.delay_update_time with
       | some t => [("delay_update_time", Json.i t)]
       | none => []))

/-- Reading a tracked-departure object back out of the loaded JSON, the way
the rest of `StateManager` accesses the loaded dict's fields (`dep.get(...)`);
the optional `delay_update_time` field defaults to absent. -/
def decodeTracked : Json → Option TrackedDeparture
  | Json.obj fields => do
    let key ← (fields.lookup "key").bind jsonAsString
    let route_id ← (fields.lookup "route_id").bind jsonAsString
    let trip_id ← (fields.lookup "trip_id").bind jsonAsString
    let stop_id ← (fields.lookup "stop_id").bind jsonAsString
    let original_departure_time ← (fields.lookup "original_departure_time").bind jsonAsInt
    let current_departure_time ← (fields.lookup "current_departure_time").bind jsonAsInt
    let initial_alert_sent ← (fields.lookup "initial_alert_sent").bind jsonAsBool
    let initial_alert_time ← (fields.lookup "initial_alert_time").bind jsonAsInt
    let delay_update_sent ← (fields.lookup "delay_update_sent").bind jsonAsBool
    some
      { key := key
        route_id := route_id
        trip_id := trip_id
        stop_id := stop_id
        original_departure_time := original_departure_time
        current_departure_time := current_departure_time
        initial_alert_sent := initial_alert_sent
        initial_alert_time := initial_alert_time
        delay_update_sent := delay_update_sent
        delay_update_time := (fields.lookup "delay_update_time").bind jsonAsInt }
  | _ => none

/-- `StateManager._save_state`: the JSON object written to the state file
(`{"last_run": ..., "tracked_departures": [...]}`). -/
def encodeState (s : StoreState) : Json :=
  Json.obj
    [("last_run",
      match s.last_run with
      | some t => Json.i t
      | none => Json.null),
     ("tracked_departures", Json.arr (s.tracked_departures.map encodeTracked))]

/-- `StateManager._load_state` on a successfully parsed file: the loaded JSON
object interpreted as a store state. -/
def decodeState : Json → Option StoreState
  | Json.obj fields => do
    let last_run ←
      match fields.lookup "last_run" with
      | some Json.null => some (none : Option Int)
      | some (Json.i t) => some (some t)
      | _ => none
    let deps ←
      match fields.lookup "tracked_departures" with
      | some (Json.arr items) => items.mapM decodeTracked
      | _ => none
    some { last_run := last_run, tracked_departures := deps }
  | _ => none

/-- Every tracked record's `key` field is the derived composite key of its own
`route_id`, `trip_id`, `stop_id`, and no two records share a key. -/
def goodKeys (s : StoreState) : Prop :=
  List.Pairwise (fun a b : TrackedDeparture => a.key ≠ b.key) s.tracked_departures ∧
  ∀ dep ∈ s.tracked_departures,
    dep.key = create_departure_key dep.route_id dep.trip_id dep.stop_id

/-- Every tracked record has `initial_alert_sent = true`. -/
def allInitialAlertSent (s : StoreState) : Prop :=
  ∀ dep ∈ s.tracked_departures, dep.initial_alert_sent = true

/-- Every tracked record with `delay_update_sent = true` has
`initial_alert_sent = true` (the invariant stated in the spec). -/
def delayImpliesInitial (s : StoreState) : Prop :=
  ∀ dep ∈ s.tracked_departures,
    dep.delay_update_sent = true → dep.initial_alert_sent = true

/-- A sample tracked record for route "64", trip "t", stop "s" with no delay
update recorded. -/
def depA : TrackedDeparture :=
  { key := "64_t_s"
    route_id := "64"
    trip_id := "t"
    stop_id := "s"
    original_departure_time := 100
    current_departure_time := 100
    initial_alert_sent := true
    initial_alert_time := 50
    delay_update_sent := false
    delay_update_time := none }

/-- A sample tracked record with the same key as `depA` whose delay update has
been sent. -/
def depB : TrackedDeparture :=
  { key := "64_t_s"
    route_id := "64"
    trip_id := "t"
    stop_id := "s"
    original_departure_time := 100
    current_departure_time := 400
    initial_alert_sent := true
    initial_alert_time := 50
    delay_update_sent := true
    delay_update_time := some 60 }

/-- A sample tracked record with `initial_alert_sent = false` (such a record is
never created by the store's own operations). -/
def depUnalerted : TrackedDeparture :=
  { key := "64_t_s"
    route_id := "64"
    trip_id := "t"
    stop_id := "s"
    original_departure_time := 100
    current_departure_time := 100
    initial_alert_sent := false
    initial_alert_time := 0
    delay_update_sent := false
    delay_update_time := none }

/-- C1.  `should_alert_now` is the closed interval
`alert_time ≤ now ≤ leave_time`: the equivalence holds for every departure and
current instant, both boundary instants are included (given the configured
advance notice is non-negative, so that the interval is non-empty), and the
instants one second outside the interval are excluded. -/
theorem should_alert_now_closed_interval (c : AlertCalculator)
    (departure_time current_time : Int)
    (h : 0 ≤ c.advance_notice_minutes) :
    (should_alert_now c departure_time current_time = true ↔
      calculate_alert_time c departure_time ≤ current_time ∧
        current_time ≤ calculate_leave_time c departure_time) ∧
    should_alert_now c departure_time (calculate_alert_time c departure_time) = true ∧
    should_alert_now c departure_time (calculate_leave_time c departure_time) = true ∧
    should_alert_now c departure_time (calculate_alert_time c departure_time - 1) = false ∧
    should_alert_now c departure_time (calculate_leave_time c departure_time + 1) = false := by
  refine ⟨?_, ?_, ?_, ?_, ?_⟩ <;>
    simp only [should_alert_now, calculate_alert_time, calculate_leave_time,
      Bool.and_eq_true, Bool.and_eq_false_iff,
      decide_eq_true_eq, decide_eq_false_iff_not] <;>
    omega

/-- Witness for C1 at a concrete configuration and instant. -/
theorem should_alert_now_closed_interval_witness :
    (0 : Int) ≤ (AlertCalculator.mk 10 15).advance_notice_minutes ∧
    should_alert_now (AlertCalculator.mk 10 15) 3600 2100 = true := by
  refine ⟨by decide, ?_⟩
  have h := should_alert_now_closed_interval (AlertCalculator.mk 10 15) 3600 2100 (by decide)
  exact h.1.mpr (by decide)

/-- Counting an element of a filtered list: kept elements keep their count,
rejected elements disappear. -/
theorem count_filter_ite (p : TrackedDeparture → Bool) (l : List TrackedDeparture)
    (a : TrackedDeparture) :
    (l.filter p).count a = if p a then l.count a else 0 := by
  by_cases h : p a = true
  · simp [h, List.count_filter]
  · simp only [h, if_false, Bool.false_eq_true]
    rw [List.count_eq_zero]
    intro hmem
    exact h (List.of_mem_filter hmem)

/-- C2 counterexample.  A record whose `original_departure_time` is exactly
`now - max_age` (here `0 = 7200 - 3600 * 2`) is claimed to be kept by
`cleanup_old_entries`, but the code's strict `>` comparison removes it. -/
theorem cleanup_old_entries_boundary_counterexample :
    (0 : Int) = 7200 - 3600 * 2 ∧
    (cleanup_old_entries
      (StoreState.mk none
        [TrackedDeparture.mk "r_t_s" "r" "t" "s" 0 0 true 0 false none])
      7200 2).tracked_departures = [] := by
  exact ⟨by decide, by decide⟩

/-- C2 amended.  `cleanup_old_entries(now, max_age)` keeps exactly the records
whose `original_departure_time` is strictly later than `now - max_age`
(so a record exactly at the cutoff is removed, not kept); surviving records
are unchanged and keep their order, and `last_run` is untouched. -/
theorem cleanup_old_entries_removes_nonlater (s : StoreState) (now max_age_hours : Int) :
    (cleanup_old_entries s now max_age_hours).last_run = s.last_run ∧
    List.Sublist (cleanup_old_entries s now max_age_hours).tracked_departures
      s.tracked_departures ∧
    ∀ dep : TrackedDeparture,
      (cleanup_old_entries s now max_age_hours).tracked_departures.count dep =
        if now - 3600 * max_age_hours < dep.original_departure_time
        then s.tracked_departures.count dep else 0 := by
  refine ⟨rfl, List.filter_sublist _, ?_⟩
  intro dep
  rw [show (cleanup_old_entries s now max_age_hours).tracked_departures =
    s.tracked_departures.filter
      (fun d => decide (now - 3600 * max_age_hours < d.original_departure_time)) from rfl]
  rw [count_filter_ite]
  by_cases h : now - 3600 * max_age_hours < dep.original_departure_time <;> simp [h]

/-- C3 counterexample.  At a delta of 150 seconds (2.5 minutes) the code's
Python `round` (half-to-even) yields 2 while the claimed
round-half-away-from-zero yields 3. -/
theorem calculate_delay_rounding_counterexample :
    calculate_delay 0 150 = 2 ∧ spec_calculate_delay 0 150 = 3 ∧
    calculate_delay 0 150 ≠ spec_calculate_delay 0 150 := by
  exact ⟨by decide, by decide, by decide⟩

/-- C3 amended.  `calculate_delay original current` is the integer nearest to
`(current - original) / 60` minutes with ties resolved towards the even
integer (Python's `round`, round-half-to-even): the result is within 30
seconds of the delta, a tie of exactly 30 seconds lands on an even result,
and any integer with those two properties is the result.  The sign is as
claimed beyond the half-minute granularity: a delta later by at least 31
seconds gives a positive delay, earlier by at least 31 seconds a negative
one. -/
theorem calculate_delay_round_half_to_even (original current : Int) :
    (current - original - 60 * calculate_delay original current).natAbs ≤ 30 ∧
    ((current - original - 60 * calculate_delay original current).natAbs = 30 →
      calculate_delay original current % 2 = 0) ∧
    (31 ≤ current - original → 1 ≤ calculate_delay original current) ∧
    (current - original ≤ -31 → calculate_delay original current ≤ -1) ∧
    ∀ m : Int, (current - original - 60 * m).natAbs ≤ 30 →
      ((current - original - 60 * m).natAbs = 30 → m % 2 = 0) →
      m = calculate_delay original current := by
  unfold calculate_delay roundHalfToEvenDiv60
  refine ⟨?_, ?_, ?_, ?_, ?_⟩
  · split_ifs <;> omega
  · split_ifs <;> omega
  · split_ifs <;> omega
  · split_ifs <;> omega
  · intro m h1 h2
    by_cases htie : (current - original - 60 * m).natAbs = 30
    · have hm := h2 htie
      split_ifs <;> omega
    · split_ifs <;> omega

/-- Scanning a list whose first key match is `x` finds `x`. -/
theorem find_first_match (p : TrackedDeparture → Bool) (l₁ l₂ : List TrackedDeparture)
    (x : TrackedDeparture) (h₁ : ∀ e ∈ l₁, p e = false) (hx : p x = true) :
    (l₁ ++ x :: l₂).find? p = some x := by
  induction l₁ with
  | nil => simp [List.find?_cons, hx]
  | cons e rest ih =>
    have he : p e = false := h₁ e (List.mem_cons_self e rest)
    simp only [List.cons_append, List.find?_cons, he]
    exact ih (fun e' he' => h₁ e' (List.mem_cons_of_mem e he'))

/-- After `record_alert`, the tracked list contains a record with the derived
key and `initial_alert_sent = true` (either the overwritten existing record or
the freshly appended entry). -/
theorem record_alert_list_any (deps : List TrackedDeparture) (key : String)
    (entry : TrackedDeparture) (d a : Int)
    (hk : entry.key = key) (hs : entry.initial_alert_sent = true) :
    (record_alert_list deps key entry d a).any
      (fun dep => dep.key == key && dep.initial_alert_sent) = true := by
  induction deps with
  | nil => simp [record_alert_list, hk, hs]
  | cons dep rest ih =>
    by_cases hdep : (dep.key == key) = true
    · simp [record_alert_list, hdep]
    · simp only [record_alert_list, hdep, if_false, Bool.false_eq_true, List.any_cons]
      simp [ih]

/-- C4.  Any non-empty sequence of `record_alert` calls for a key (with
arbitrary departure and alert times in each call) leaves the store answering
`has_alerted = true` for that key, from any starting store. -/
theorem record_alert_then_has_alerted (s : StoreState) (route_id trip_id stop_id : String)
    (args : List (Int × Int)) (h : args ≠ []) :
    has_alerted
      (args.foldl (fun acc p => record_alert acc route_id trip_id stop_id p.1 p.2) s)
      route_id trip_id stop_id = true := by
  rcases List.eq_nil_or_concat args with hnil | ⟨l, x, rfl⟩
  · exact absurd hnil h
  · rw [List.concat_eq_append, List.foldl_append]
    simp only [List.foldl_cons, List.foldl_nil]
    unfold has_alerted record_alert
    exact record_alert_list_any _ _ _ _ _ rfl rfl

/-- Witness for C4: one `record_alert` on the empty store. -/
theorem record_alert_then_has_alerted_witness :
    ([((0 : Int), (0 : Int))] ≠ []) ∧
    has_alerted
      ([((0 : Int), (0 : Int))].foldl
        (fun acc p => record_alert acc "64" "trip1" "stop5" p.1 p.2) new_state)
      "64" "trip1" "stop5" = true := by
  exact ⟨by decide,
    record_alert_then_has_alerted new_state "64" "trip1" "stop5"
      [((0 : Int), (0 : Int))] (by decide)⟩

/-- `record_delay_update` on a list with no matching key changes nothing. -/
theorem record_delay_update_list_no_match (deps : List TrackedDeparture) (key : String)
    (nd now : Int) (h : ∀ e ∈ deps, e.key ≠ key) :
    record_delay_update_list deps key nd now = deps := by
  induction deps with
  | nil => rfl
  | cons dep rest ih =>
    have hdep : (dep.key == key) = false := by
      simp only [beq_eq_false_iff_ne, ne_eq]
      exact h dep (List.mem_cons_self dep rest)
    simp only [record_delay_update_list, hdep, Bool.false_eq_true, if_false,
      List.cons.injEq, true_and]
    exact ih (fun e he => h e (List.mem_cons_of_mem dep he))

/-- `record_delay_update` on a list whose first matching record is `dep`
updates exactly that record. -/
theorem record_delay_update_list_first_match (l₁ l₂ : List TrackedDeparture)
    (dep : TrackedDeparture) (key : String) (nd now : Int)
    (h₁ : ∀ e ∈ l₁, e.key ≠ key) (hdep : dep.key = key) :
    record_delay_update_list (l₁ ++ dep :: l₂) key nd now =
      l₁ ++ { dep with delay_update_sent := true, current_departure_time := nd, delay_update_time := some now } :: l₂ := by
  induction l₁ with
  | nil =>
    simp only [List.nil_append, record_delay_update_list, hdep, beq_self_eq_true, if_true]
  | cons e rest ih =>
    have he : (e.key == key) = false := by
      simp only [beq_eq_false_iff_ne, ne_eq]
      exact h₁ e (List.mem_cons_self e rest)
    simp only [List.cons_append, record_delay_update_list, he, Bool.false_eq_true,
      if_false, List.cons.injEq, true_and]
    exact ih (fun e' he' => h₁ e' (List.mem_cons_of_mem e he'))

/-- C6.  `record_delay_update` is a no-op when no record with the key exists
(it never creates a record); when a record exists, the first record with the
key gets `delay_update_sent := true`, `current_departure_time` set to the new
departure time and `delay_update_time` stamped, while every other record and
`last_run` are unchanged. -/
theorem record_delay_update_absent_noop_present_update (s : StoreState)
    (route_id trip_id stop_id : String) (nd now : Int) :
    ((∀ dep ∈ s.tracked_departures,
        dep.key ≠ create_departure_key route_id trip_id stop_id) →
      record_delay_update s route_id trip_id stop_id nd now = s) ∧
    ∀ l₁ dep l₂, s.tracked_departures = l₁ ++ dep :: l₂ →
      (∀ e ∈ l₁, e.key ≠ create_departure_key route_id trip_id stop_id) →
      dep.key = create_departure_key route_id trip_id stop_id →
      (record_delay_update s route_id trip_id stop_id nd now).tracked_departures =
        l₁ ++ { dep with delay_update_sent := true, current_departure_time := nd, delay_update_time := some now } :: l₂ ∧
      (record_delay_update s route_id trip_id stop_id nd now).last_run = s.last_run := by
  constructor
  · intro h
    unfold record_delay_update
    rw [record_delay_update_list_no_match s.tracked_departures _ nd now h]
  · intro l₁ dep l₂ hs h₁ hdep
    refine ⟨?_, rfl⟩
    unfold record_delay_update
    simp only [hs]
    exact record_delay_update_list_first_match l₁ l₂ dep _ nd now h₁ hdep

/-- `record_alert` on a list whose first matching record is `dep` overwrites
exactly that record's four alert fields and touches nothing else. -/
theorem record_alert_list_first_match (l₁ l₂ : List TrackedDeparture)
    (dep : TrackedDeparture) (key : String) (entry : TrackedDeparture) (d a : Int)
    (h₁ : ∀ e ∈ l₁, e.key ≠ key) (hdep : dep.key = key) :
    record_alert_list (l₁ ++ dep :: l₂) key entry d a =
      l₁ ++ { dep with initial_alert_sent := true, initial_alert_time := a, original_departure_time := d, current_departure_time := d } :: l₂ := by
  induction l₁ with
  | nil =>
    simp only [List.nil_append, record_alert_list, hdep, beq_self_eq_true, if_true]
  | cons e rest ih =>
    have he : (e.key == key) = false := by
      simp only [beq_eq_false_iff_ne, ne_eq]
      exact h₁ e (List.mem_cons_self e rest)
    simp only [List.cons_append, record_alert_list, he, Bool.false_eq_true,
      if_false, List.cons.injEq, true_and]
    exact ih (fun e' he' => h₁ e' (List.mem_cons_of_mem e he'))

/-- C9.  When a record for the key already exists, `record_alert` rewrites only
that record's `initial_alert_sent`, `initial_alert_time`,
`original_departure_time` and `current_departure_time`; its delay fields, every
other record and `last_run` are untouched, so in particular
`has_sent_delay_update` answers afterwards exactly what it answered before. -/
theorem record_alert_existing_key_frame (s : StoreState)
    (route_id trip_id stop_id : String) (d a : Int)
    (l₁ l₂ : List TrackedDeparture) (dep : TrackedDeparture)
    (hs : s.tracked_departures = l₁ ++ dep :: l₂)
    (h₁ : ∀ e ∈ l₁, e.key ≠ create_departure_key route_id trip_id stop_id)
    (hdep : dep.key = create_departure_key route_id trip_id stop_id) :
    (record_alert s route_id trip_id stop_id d a).tracked_departures =
      l₁ ++ { dep with initial_alert_sent := true, initial_alert_time := a, original_departure_time := d, current_departure_time := d } :: l₂ ∧
    (record_alert s route_id trip_id stop_id d a).last_run = s.last_run ∧
    has_sent_delay_update (record_alert s route_id trip_id stop_id d a)
        route_id trip_id stop_id =
      has_sent_delay_update s route_id trip_id stop_id := by
  have hp : ∀ e ∈ l₁,
      (e.key == create_departure_key route_id trip_id stop_id) = false := by
    intro e he
    simp only [beq_eq_false_iff_ne, ne_eq]
    exact h₁ e he
  have htracked :
      (record_alert s route_id trip_id stop_id d a).tracked_departures =
        l₁ ++ { dep with initial_alert_sent := true, initial_alert_time := a, original_departure_time := d, current_departure_time := d } :: l₂ := by
    unfold record_alert
    simp only [hs]
    exact record_alert_list_first_match l₁ l₂ dep _ _ d a h₁ hdep
  refine ⟨htracked, rfl, ?_⟩
  unfold has_sent_delay_update
  rw [htracked, hs]
  rw [find_first_match _ l₁ l₂ dep hp (by simp [hdep])]
  rw [find_first_match _ l₁ _ _ hp (by simp [hdep])]

/-- Witness for C9: `record_alert` on a one-record store holding `depB`
(a record with a sent delay update for the key). -/
theorem record_alert_existing_key_frame_witness :
    ((StoreState.mk none [depB]).tracked_departures = [] ++ depB :: []) ∧
    (∀ e ∈ ([] : List TrackedDeparture),
      e.key ≠ create_departure_key "64" "t" "s") ∧
    depB.key = create_departure_key "64" "t" "s" ∧
    ((record_alert (StoreState.mk none [depB]) "64" "t" "s" 500 600).tracked_departures =
      [] ++ { depB with initial_alert_sent := true, initial_alert_time := 600, original_departure_time := 500, current_departure_time := 500 } :: [] ∧
    (record_alert (StoreState.mk none [depB]) "64" "t" "s" 500 600).last_run =
      (StoreState.mk none [depB]).last_run ∧
    has_sent_delay_update (record_alert (StoreState.mk none [depB]) "64" "t" "s" 500 600)
        "64" "t" "s" =
      has_sent_delay_update (StoreState.mk none [depB]) "64" "t" "s") := by
  refine ⟨by decide, by decide, by decide, ?_⟩
  exact record_alert_existing_key_frame (StoreState.mk none [depB]) "64" "t" "s"
    500 600 [] [] depB (by decide) (by decide) (by decide)

/-- C7 counterexample.  On a store holding two records with the same key —
first without, then with a sent delay update — `has_sent_delay_update`
returns false although a record for the key with `delay_update_sent = true`
exists, because the loop returns the flag of the first key match. -/
theorem has_sent_delay_update_first_match_counterexample :
    has_sent_delay_update (StoreState.mk none [depA, depB]) "64" "t" "s" = false ∧
    depB ∈ (StoreState.mk none [depA, depB]).tracked_departures ∧
    depB.key = create_departure_key "64" "t" "s" ∧
    depB.delay_update_sent = true := by
  exact ⟨by decide, by decide, by decide, by decide⟩

/-- The flag of the first key match agrees with "some record with the key has
the flag" as soon as keys are pairwise distinct. -/
theorem find_delay_flag_iff (l : List TrackedDeparture) (key : String)
    (hkeys : List.Pairwise (fun a b : TrackedDeparture => a.key ≠ b.key) l) :
    (match l.find? (fun dep => dep.key == key) with
      | some dep => dep.delay_update_sent
      | none => false) = true ↔
    ∃ dep ∈ l, dep.key = key ∧ dep.delay_update_sent = true := by
  induction hkeys with
  | nil => simp
  | @cons dep rest hhead htail ih =>
    by_cases hdep : (dep.key == key) = true
    · simp only [List.find?_cons, hdep]
      constructor
      · intro hdus
        exact ⟨dep, List.mem_cons_self dep rest, by simpa using hdep, hdus⟩
      · rintro ⟨e, he, hekey, hedus⟩
        rcases List.mem_cons.mp he with rfl | he'
        · exact hedus
        · exact absurd (show dep.key = e.key from
            (show dep.key = key by simpa using hdep).trans hekey.symm)
            (hhead e he')
    · simp only [List.find?_cons, hdep]
      rw [ih]
      constructor
      · rintro ⟨e, he, hekey, hedus⟩
        exact ⟨e, List.mem_cons_of_mem dep he, hekey, hedus⟩
      · rintro ⟨e, he, hekey, hedus⟩
        rcases List.mem_cons.mp he with rfl | he'
        · exact absurd hekey (by simpa using hdep)
        · exact ⟨e, he', hekey, hedus⟩

/-- C7 amended.  On a store whose records have pairwise-distinct keys (as every
store reachable through the API has), `has_sent_delay_update` returns true iff
a record for the key exists with `delay_update_sent = true`; on any such store
with no record for the key it returns false rather than failing.  (In general
the code returns the `delay_update_sent` flag of the first record with the
key.) -/
theorem has_sent_delay_update_iff (s : StoreState) (route_id trip_id stop_id : String)
    (hkeys : List.Pairwise (fun a b : TrackedDeparture => a.key ≠ b.key)
      s.tracked_departures) :
    (has_sent_delay_update s route_id trip_id stop_id = true ↔
      ∃ dep ∈ s.tracked_departures,
        dep.key = create_departure_key route_id trip_id stop_id ∧
        dep.delay_update_sent = true) ∧
    ((∀ dep ∈ s.tracked_departures,
        dep.key ≠ create_departure_key route_id trip_id stop_id) →
      has_sent_delay_update s route_id trip_id stop_id = false) := by
  constructor
  · unfold has_sent_delay_update
    exact find_delay_flag_iff s.tracked_departures _ hkeys
  · intro habsent
    unfold has_sent_delay_update
    have hnone : s.tracked_departures.find?
        (fun dep => dep.key == create_departure_key route_id trip_id stop_id) =
          none := by
      rw [List.find?_eq_none]
      intro e he
      simpa using habsent e he
    rw [hnone]

/-- Witness for C7 on the one-record store holding `depB`. -/
theorem has_sent_delay_update_iff_witness :
    List.Pairwise (fun a b : TrackedDeparture => a.key ≠ b.key)
      (StoreState.mk none [depB]).tracked_departures ∧
    (has_sent_delay_update (StoreState.mk none [depB]) "64" "t" "s" = true ↔
      ∃ dep ∈ (StoreState.mk none [depB]).tracked_departures,
        dep.key = create_departure_key "64" "t" "s" ∧
        dep.delay_update_sent = true) := by
  refine ⟨by simp, ?_⟩
  exact (has_sent_delay_update_iff (StoreState.mk none [depB]) "64" "t" "s"
    (by simp)).1

/-- Each record after `record_alert`'s loop is the fresh entry, an untouched
original record, or the alert-overwritten image of an original record. -/
theorem mem_record_alert_list (deps : List TrackedDeparture) (key : String)
    (entry : TrackedDeparture) (d a : Int) (x : TrackedDeparture)
    (hx : x ∈ record_alert_list deps key entry d a) :
    x = entry ∨ x ∈ deps ∨ ∃ e ∈ deps, x = { e with initial_alert_sent := true, initial_alert_time := a, original_departure_time := d, current_departure_time := d } := by
  induction deps with
  | nil =>
    simp only [record_alert_list, List.mem_singleton] at hx
    exact Or.inl hx
  | cons dep rest ih =>
    by_cases hdep : (dep.key == key) = true
    · simp only [record_alert_list, hdep, if_true, List.mem_cons] at hx
      rcases hx with hx | hx
      · exact Or.inr (Or.inr ⟨dep, List.mem_cons_self dep rest, hx⟩)
      · exact Or.inr (Or.inl (List.mem_cons_of_mem dep hx))
    · simp only [record_alert_list, hdep, Bool.false_eq_true, if_false,
        List.mem_cons] at hx
      rcases hx with hx | hx
      · exact Or.inr (Or.inl (hx ▸ List.mem_cons_self dep rest))
      · rcases ih hx with h | h | ⟨e, he, hxe⟩
        · exact Or.inl h
        · exact Or.inr (Or.inl (List.mem_cons_of_mem dep h))
        · exact Or.inr (Or.inr ⟨e, List.mem_cons_of_mem dep he, hxe⟩)

/-- Each record after `record_delay_update`'s loop is an untouched original
record or the delay-updated image of one. -/
theorem mem_record_delay_update_list (deps : List TrackedDeparture) (key : String)
    (nd now : Int) (x : TrackedDeparture)
    (hx : x ∈ record_delay_update_list deps key nd now) :
    x ∈ deps ∨ ∃ e ∈ deps, x = { e with delay_update_sent := true, current_departure_time := nd, delay_update_time := some now } := by
  induction deps with
  | nil => simp [record_delay_update_list] at hx
  | cons dep rest ih =>
    by_cases hdep : (dep.key == key) = true
    · simp only [record_delay_update_list, hdep, if_true, List.mem_cons] at hx
      rcases hx with hx | hx
      · exact Or.inr ⟨dep, List.mem_cons_self dep rest, hx⟩
      · exact Or.inl (List.mem_cons_of_mem dep hx)
    · simp only [record_delay_update_list, hdep, Bool.false_eq_true, if_false,
        List.mem_cons] at hx
      rcases hx with hx | hx
      · exact Or.inl (hx ▸ List.mem_cons_self dep rest)
      · rcases ih hx with h | ⟨e, he, hxe⟩
        · exact Or.inl (List.mem_cons_of_mem dep h)
        · exact Or.inr ⟨e, List.mem_cons_of_mem dep he, hxe⟩

/-- The delay-update loop never changes the sequence of keys. -/
theorem keys_record_delay_update_list (deps : List TrackedDeparture) (key : String)
    (nd now : Int) :
    (record_delay_update_list deps key nd now).map (fun dep => dep.key) =
      deps.map (fun dep => dep.key) := by
  induction deps with
  | nil => rfl
  | cons dep rest ih =>
    by_cases hdep : (dep.key == key) = true
    · simp only [record_delay_update_list, hdep, if_true, List.map_cons]
    · simp only [record_delay_update_list, hdep, Bool.false_eq_true, if_false,
        List.map_cons, ih]

/-- The alert loop either rewrites an existing record in place (key sequence
unchanged) or, when no key matches, appends the fresh entry's key at the
end. -/
theorem keys_record_alert_list (deps : List TrackedDeparture) (key : String)
    (entry : TrackedDeparture) (d a : Int) :
    (record_alert_list deps key entry d a).map (fun dep => dep.key) =
        deps.map (fun dep => dep.key) ∨
      ((record_alert_list deps key entry d a).map (fun dep => dep.key) =
          deps.map (fun dep => dep.key) ++ [entry.key] ∧
        ∀ e ∈ deps, e.key ≠ key) := by
  induction deps with
  | nil =>
    refine Or.inr ⟨rfl, ?_⟩
    intro e he
    simp at he
  | cons dep rest ih =>
    by_cases hdep : (dep.key == key) = true
    · exact Or.inl (by simp only [record_alert_list, hdep, if_true, List.map_cons])
    · rcases ih with h | ⟨h, hnone⟩
      · exact Or.inl (by
          simp only [record_alert_list, hdep, Bool.false_eq_true, if_false,
            List.map_cons, h])
      · refine Or.inr ⟨by
          simp only [record_alert_list, hdep, Bool.false_eq_true, if_false,
            List.map_cons, h, List.cons_append], ?_⟩
        intro e he
        rcases List.mem_cons.mp he with rfl | he'
        · simpa using hdep
        · exact hnone e he'

/-- Every mutating `StateManager` call preserves "every record's key is the
derived composite key and keys are pairwise distinct". -/
theorem applyOp_preserves_goodKeys (s : StoreState) (op : StoreOp)
    (h : goodKeys s) : goodKeys (applyOp s op) := by
  rcases h with ⟨hpair, hderived⟩
  cases op with
  | opRecordAlert r t st d a =>
    constructor
    · rw [← List.pairwise_map (f := fun dep : TrackedDeparture => dep.key)]
      rcases keys_record_alert_list s.tracked_departures
          (create_departure_key r t st)
          (newTrackedEntry r t st d a) d a with hk | ⟨hk, hnone⟩
      · show ((record_alert s r t st d a).tracked_departures.map
          (fun dep => dep.key)).Pairwise (· ≠ ·)
        rw [show (record_alert s r t st d a).tracked_departures =
            record_alert_list s.tracked_departures (create_departure_key r t st)
              (newTrackedEntry r t st d a) d a from rfl, hk]
        rw [List.pairwise_map]
        exact hpair
      · show ((record_alert s r t st d a).tracked_departures.map
          (fun dep => dep.key)).Pairwise (· ≠ ·)
        rw [show (record_alert s r t st d a).tracked_departures =
            record_alert_list s.tracked_departures (create_departure_key r t st)
              (newTrackedEntry r t st d a) d a from rfl, hk]
        rw [List.pairwise_append]
        refine ⟨by rw [List.pairwise_map]; exact hpair, by simp, ?_⟩
        intro x hx y hy
        rcases List.mem_map.mp hx with ⟨e, he, rfl⟩
        rcases List.mem_singleton.mp hy with rfl
        show e.key ≠ (newTrackedEntry r t st d a).key
        exact hnone e he
    · intro dep hdep
      rcases mem_record_alert_list _ _ _ _ _ _ hdep with hk | hk | ⟨e, he, rfl⟩
      · rw [hk]
        rfl
      · exact hderived dep hk
      · exact hderived e he
  | opRecordDelayUpdate r t st nd now =>
    constructor
    · rw [← List.pairwise_map (f := fun dep : TrackedDeparture => dep.key)]
      show ((record_delay_update s r t st nd now).tracked_departures.map
        (fun dep => dep.key)).Pairwise (· ≠ ·)
      rw [show (record_delay_update s r t st nd now).tracked_departures =
          record_delay_update_list s.tracked_departures
            (create_departure_key r t st) nd now from rfl,
        keys_record_delay_update_list, List.pairwise_map]
      exact hpair
    · intro dep hdep
      rcases mem_record_delay_update_list _ _ _ _ _ hdep with hk | ⟨e, he, rfl⟩
      · exact hderived dep hk
      · exact hderived e he
  | opCleanupOldEntries now mah =>
    constructor
    · exact hpair.sublist (List.filter_sublist _)
    · intro dep hdep
      exact hderived dep (List.mem_of_mem_filter hdep)
  | opUpdateLastRun rt =>
    exact ⟨hpair, hderived⟩

/-- Every mutating `StateManager` call preserves "every record has
`initial_alert_sent = true`". -/
theorem applyOp_preserves_allInitialAlertSent (s : StoreState) (op : StoreOp)
    (h : allInitialAlertSent s) : allInitialAlertSent (applyOp s op) := by
  cases op with
  | opRecordAlert r t st d a =>
    intro dep hdep
    rcases mem_record_alert_list _ _ _ _ _ _ hdep with hk | hk | ⟨e, he, rfl⟩
    · rw [hk]
      rfl
    · exact h dep hk
    · rfl
  | opRecordDelayUpdate r t st nd now =>
    intro dep hdep
    rcases mem_record_delay_update_list _ _ _ _ _ hdep with hk | ⟨e, he, rfl⟩
    · exact h dep hk
    · exact h e he
  | opCleanupOldEntries now mah =>
    intro dep hdep
    exact h dep (List.mem_of_mem_filter hdep)
  | opUpdateLastRun rt =>
    exact h

/-- `goodKeys` holds in every store reachable by the API from a store where it
holds. -/
theorem runOps_preserves_goodKeys (ops : List StoreOp) (s : StoreState)
    (h : goodKeys s) : goodKeys (runOps s ops) := by
  induction ops generalizing s with
  | nil => exact h
  | cons op rest ih =>
    exact ih (applyOp s op) (applyOp_preserves_goodKeys s op h)

/-- `allInitialAlertSent` holds in every store reachable by the API from a
store where it holds. -/
theorem runOps_preserves_allInitialAlertSent (ops : List StoreOp) (s : StoreState)
    (h : allInitialAlertSent s) : allInitialAlertSent (runOps s ops) := by
  induction ops generalizing s with
  | nil => exact h
  | cons op rest ih =>
    exact ih (applyOp s op) (applyOp_preserves_allInitialAlertSent s op h)

/-- C5 counterexample.  The literal invariant "`delay_update_sent` implies
`initial_alert_sent`" is not preserved by `record_delay_update` on an
arbitrary store satisfying it: on a store holding a record with
`initial_alert_sent = false` (and no delay update sent), the call sets
`delay_update_sent := true` without touching `initial_alert_sent`. -/
theorem delay_invariant_preservation_counterexample :
    delayImpliesInitial (StoreState.mk none [depUnalerted]) ∧
    ¬ delayImpliesInitial
      (record_delay_update (StoreState.mk none [depUnalerted]) "64" "t" "s" 200 300) := by
  constructor
  · unfold delayImpliesInitial
    decide
  · unfold delayImpliesInitial
    decide

/-- C5 amended.  Every store reachable from the empty store by the API
satisfies "`delay_update_sent` implies `initial_alert_sent`"; what each
operation preserves is the stronger invariant "every record has
`initial_alert_sent = true`", which implies the stated one and holds along
every reachable execution. -/
theorem delay_update_sent_implies_initial_alert (ops : List StoreOp) :
    delayImpliesInitial (runOps new_state ops) ∧
    (∀ (s : StoreState) (op : StoreOp),
      allInitialAlertSent s → allInitialAlertSent (applyOp s op)) ∧
    ∀ s : StoreState, allInitialAlertSent s → delayImpliesInitial s := by
  have himp : ∀ s : StoreState, allInitialAlertSent s → delayImpliesInitial s := by
    intro s hs dep hdep _
    exact hs dep hdep
  refine ⟨?_, applyOp_preserves_allInitialAlertSent, himp⟩
  refine himp _ (runOps_preserves_allInitialAlertSent ops new_state ?_)
  intro dep hdep
  simp [new_state] at hdep

/-- C10.  Every store reachable from the empty store by the API holds at most
one record per composite key `(route_id, trip_id, stop_id)`: its tracked
records are pairwise distinct in that triple. -/
theorem at_most_one_record_per_key (ops : List StoreOp) :
    List.Pairwise
      (fun a b : TrackedDeparture =>
        ¬(a.route_id = b.route_id ∧ a.trip_id = b.trip_id ∧ a.stop_id = b.stop_id))
      (runOps new_state ops).tracked_departures := by
  have h0 : goodKeys new_state := by
    constructor
    · exact List.Pairwise.nil
    · intro dep hdep
      simp [new_state] at hdep
  rcases runOps_preserves_goodKeys ops new_state h0 with ⟨hpair, hderived⟩
  refine hpair.imp_of_mem ?_
  intro a b ha hb hne
  rintro ⟨h1, h2, h3⟩
  refine hne ?_
  rw [hderived a ha, hderived b hb, h1, h2, h3]

/-- One tracked record survives the persisted-JSON round trip. -/
theorem decodeTracked_encodeTracked (dep : TrackedDeparture) :
    decodeTracked (encodeTracked dep) = some dep := by
  cases dep with
  | mk key route_id trip_id stop_id o c ias iat dus dut =>
    cases dut with
    | none => rfl
    | some t => rfl

/-- The whole tracked list survives the persisted-JSON round trip. -/
theorem mapM_decodeTracked_encodeTracked (l : List TrackedDeparture) :
    (l.map encodeTracked).mapM decodeTracked = some l := by
  induction l with
  | nil => rfl
  | cons x xs ih =>
    simp only [List.map_cons, List.mapM_cons, decodeTracked_encodeTracked, ih]
    rfl

/-- C8.  Saving a store (the JSON object `_save_state` writes) and loading it
back (`_load_state` on the same JSON value) is the identity on the store, so
in particular the set of `TrackedDeparture` records is unchanged; the textual
layer between JSON value and file bytes is the Python standard library's
`json` module, a bijection on these values. -/
theorem save_load_round_trip (s : StoreState) :
    decodeState (encodeState s) = some s := by
  cases s with
  | mk lr deps =>
    cases lr with
    | none =>
      have h : decodeState (encodeState ⟨none, deps⟩) =
          ((deps.map encodeTracked).mapM decodeTracked).bind
            (fun ds => some ⟨none, ds⟩) := rfl
      rw [h, mapM_decodeTracked_encodeTracked]
      rfl
    | some t =>
      have h : decodeState (encodeState ⟨some t, deps⟩) =
          ((deps.map encodeTracked).mapM decodeTracked).bind
            (fun ds => some ⟨some t, ds⟩) := rfl
      rw [h, mapM_decodeTracked_encodeTracked]
      rfl
